import Mathlib

/-!
Verification of the dungeon-forge generation engine.

Shallow embedding of the generation core of the `dungeon-forge` repository:
the seeded RNG, the procedural dungeon generator, the single-run generation
command, the batch simulation runner with its statistics aggregator, and the
branch-weight editing operations.

Conventions of the embedding:

* JavaScript numbers that hold integer values are modelled as `ℤ` (or `ℕ`
  where the source guarantees non-negativity), fractional values as exact
  rationals `ℚ`.  The LCG state update `(seed * 1103515245 + 12345) &
  0x7fffffff` is computed in IEEE-754 binary64 arithmetic by the source:
  the product and the sum are each rounded to the nearest representable
  double (ties to even) before the 32-bit mask is applied.  The embedding
  reproduces this exactly on integers: `fl64` rounds an integer to the
  nearest multiple of its binary64 unit in the last place, and `jsStep`
  chains the two roundings with the final reduction modulo `2 ^ 31`
  (`ToInt32` followed by `& 0x7fffffff` is reduction modulo `2 ^ 31` on
  integer-valued doubles).  The model is exact for magnitudes below
  `2 ^ 117`, far beyond any product of a 31-bit state with the multiplier.
  The final division by `0x7fffffff` in `next()` is kept as an exact
  rational: the relative rounding error of the real division is at most
  `2 ^ 53` to one, while `0x7fffffff` is prime, so `state * n / 0x7fffffff`
  is never within that error of a nonzero integer for the small range
  widths `n` in play — the floors computed from the exact rational agree
  with the floors the doubles produce.
* `Math.floor` is `Int.floor` on `ℚ`; `Math.floor(h / 2)` on an integer is
  Euclidean division by `2`, which agrees with floor division for a
  positive divisor.
* A JavaScript array read out of bounds yields `undefined`; we model the
  value as `Option` with `none` for `undefined`.  Where the source would
  then dereference a property of `undefined` (a thrown `TypeError`), the
  embedded function returns `none` for the whole computation.
* Wall-clock reads (`Date.now()`, `performance.now()`) are passed in as
  explicit arguments; they never influence generated content.
-/

set_option maxRecDepth 2000000
set_option maxHeartbeats 3200000

namespace DungeonForge

/-! ## Seeded RNG (`SeededRandom` in the mock backend) -/

/-- Modulus of the 31-bit mask `& 0x7fffffff` in the LCG state update. -/
def lcgMod : ℤ := 2 ^ 31

/-- The divisor `0x7fffffff` used by `next()` to map the state to `[0, 1)`. -/
def lcgMax : ℤ := 0x7fffffff

/-- Floor of the base-two logarithm of `k` (for `1 ≤ k < 2 ^ 64`), by
    constant-depth binary search on the bit length. -/
def log2aux (k : ℕ) : ℕ :=
  let b5 : ℕ := if 2 ^ 32 ≤ k then 32 else 0
  let k5 := k / 2 ^ b5
  let b4 : ℕ := if 2 ^ 16 ≤ k5 then 16 else 0
  let k4 := k5 / 2 ^ b4
  let b3 : ℕ := if 2 ^ 8 ≤ k4 then 8 else 0
  let k3 := k4 / 2 ^ b3
  let b2 : ℕ := if 2 ^ 4 ≤ k3 then 4 else 0
  let k2 := k3 / 2 ^ b2
  let b1 : ℕ := if 2 ^ 2 ≤ k2 then 2 else 0
  let k1 := k2 / 2 ^ b1
  let b0 : ℕ := if 2 ≤ k1 then 1 else 0
  b5 + b4 + b3 + b2 + b1 + b0

/-- Exponent of the binary64 unit in the last place of the integer `v`:
    `0` while `|v| < 2 ^ 53` (every such integer is representable exactly),
    and the number of bits of `|v| / 2 ^ 53` otherwise.  Exact for
    `|v| < 2 ^ 117`. -/
def ulpExp (v : ℤ) : ℕ :=
  if v.natAbs / 2 ^ 53 = 0 then 0
  else if v.natAbs / 2 ^ 53 = 1 then 1
  else 2 + log2aux (v.natAbs / 2 ^ 53 / 2)

/-- Round `v` to the nearest multiple of `2 ^ e`, ties to the even
    multiple — the binary64 rounding rule at unit in the last place
    `2 ^ e`. -/
def roundEven (v : ℤ) (e : ℕ) : ℤ :=
  if 2 * (v % 2 ^ e) < 2 ^ e then v / 2 ^ e * 2 ^ e
  else if (2 ^ e : ℤ) < 2 * (v % 2 ^ e) then (v / 2 ^ e + 1) * 2 ^ e
  else if v / 2 ^ e % 2 = 0 then v / 2 ^ e * 2 ^ e else (v / 2 ^ e + 1) * 2 ^ e

/-- The nearest binary64 double to the integer `v` (as an integer; exact
    for `|v| < 2 ^ 117`). -/
def fl64 (v : ℤ) : ℤ := roundEven v (ulpExp v)

/-- One LCG state update as the source computes it:
    `(s * 1103515245 + 12345) & 0x7fffffff` with the product and the sum
    each rounded to binary64, and the mask as reduction modulo `2 ^ 31`.
    The match on the two integer constructors only forces the state value
    before the arithmetic; both branches compute the same expression. -/
def jsStep (s : ℤ) : ℤ :=
  match s with
  | .ofNat n => fl64 (fl64 (Int.ofNat n * 1103515245) + 12345) % lcgMod
  | .negSucc n => fl64 (fl64 (Int.negSucc n * 1103515245) + 12345) % lcgMod

/-- State of the mock backend PRNG. The constructor accepts any seed. -/
structure SeededRandom where
  seed : ℤ
deriving DecidableEq

/-- `next()`: advance the LCG state through `jsStep` and return
    `seed / 0x7fffffff` as an exact rational. -/
def SeededRandom.next (r : SeededRandom) : SeededRandom × ℚ :=
  let s : ℤ := jsStep r.seed
  (⟨s⟩, (s : ℚ) / (lcgMax : ℚ))

/-- `nextInt(min, max)`: `Math.floor(next() * (max - min + 1)) + min`. -/
def SeededRandom.nextInt (r : SeededRandom) (lo hi : ℤ) : SeededRandom × ℤ :=
  let p := r.next
  (p.1, ⌊p.2 * ((hi - lo + 1 : ℤ) : ℚ)⌋ + lo)

/-- `pick(array)`: `array[Math.floor(next() * array.length)]`; the read is out
    of bounds (JS `undefined`, here `none`) exactly when `next()` returns `1`
    on a non-empty array, or when the array is empty. -/
def SeededRandom.pick {α : Type} (r : SeededRandom) (xs : List α) :
    SeededRandom × Option α :=
  let p := r.next
  (p.1, xs.get? (⌊p.2 * (xs.length : ℚ)⌋).toNat)

/-! ## Dungeon data model (`types/index.ts`) -/

structure Position where
  x : ℤ
  y : ℤ
deriving DecidableEq

structure Rectangle where
  x : ℤ
  y : ℤ
  width : ℤ
  height : ℤ
deriving DecidableEq

/-- An entity placed in a room.  `type` is `none` when the source stored the
    `undefined` produced by an out-of-bounds `pick`. -/
structure PlacedEntity where
  id : String
  type : Option String
  position : Position
deriving DecidableEq

structure RoomMetadata where
  difficulty : ℚ
  theme : Option String
deriving DecidableEq

structure GeneratedRoom where
  id : String
  type : Option String
  bounds : Rectangle
  entities : List PlacedEntity
  metadata : RoomMetadata
deriving DecidableEq

structure RoomConnection where
  fromRoomId : String
  toRoomId : String
  fromDoor : Position
  toDoor : Position
deriving DecidableEq

structure SpawnPoint where
  id : String
  type : Option String
  position : Position
  roomId : String
deriving DecidableEq

structure DungeonLayout where
  rooms : List GeneratedRoom
  connections : List RoomConnection
  spawnPoints : List SpawnPoint
  playerStart : Position
  exits : List Position
deriving DecidableEq

/-! ## The procedural generator (`generateDungeon`) -/

/-- `Math.floor(h / 2)` of the source; Euclidean division agrees with floor
    division for the positive divisor `2`. -/
def jsHalf (h : ℤ) : ℤ := h / 2

/-- The room type palette; the generator picks from `roomTypes.slice(1, 4)`. -/
def roomTypes : List String := ["entrance", "hallway", "chamber", "treasure", "boss"]

/-- One entity of the per-room entity loop: a type pick followed by the two
    coordinate draws. -/
def genEntity (r : SeededRandom) (i e : ℕ) (x y width height : ℤ) :
    SeededRandom × PlacedEntity :=
  let p1 := r.pick ["enemy", "chest", "trap", "decoration"]
  let p2 := p1.1.nextInt 1 (width - 2)
  let p3 := p2.1.nextInt 1 (height - 2)
  (p3.1,
    { id := "entity-" ++ toString i ++ "-" ++ toString e
      type := p1.2
      position := ⟨x + p2.2, y + p3.2⟩ })

/-- The entity loop body, iterating `e` from `0` while `n` counts down. -/
def genEntitiesAux (i : ℕ) (x y width height : ℤ) :
    ℕ → ℕ → SeededRandom → SeededRandom × List PlacedEntity
  | 0, _, r => (r, [])
  | n + 1, e, r =>
      let p := genEntity r i e x y width height
      let q := genEntitiesAux i x y width height n (e + 1) p.1
      (q.1, p.2 :: q.2)

/-- Entity generation for one room: `entityCount = nextInt(0, 4)` draws,
    skipped entirely by the caller for the entrance room. -/
def genEntities (i : ℕ) (x y width height : ℤ) (r : SeededRandom) :
    SeededRandom × List PlacedEntity :=
  let p := r.nextInt 0 4
  genEntitiesAux i x y width height p.2.toNat 0 p.1

/-- One iteration of the room loop: size and offset draws, the room type
    (fixed for the first and last room, picked otherwise), the theme pick,
    then the entity loop for non-entrance rooms.  Returns the new RNG state,
    the room, and the updated `lastX`/`lastY`. -/
def genRoom (roomCount i : ℕ) (lastX lastY : ℤ) (r : SeededRandom) :
    SeededRandom × GeneratedRoom × ℤ × ℤ :=
  let pw := r.nextInt 6 14
  let ph := pw.1.nextInt 6 12
  let pox := ph.1.nextInt (-3) 8
  let poy := pox.1.nextInt (-3) 8
  let width := pw.2
  let height := ph.2
  let x := lastX + pox.2
  let y := lastY + poy.2
  let pt : SeededRandom × Option String :=
    if i = 0 then (poy.1, some ("entrance"))
    else if i = roomCount - 1 then (poy.1, some ("boss"))
    else poy.1.pick ((roomTypes.drop 1).take 3)
  let pth := pt.1.pick ["stone", "moss", "crystal", "lava"]
  let pe : SeededRandom × List PlacedEntity :=
    if pt.2 ≠ some ("entrance") then genEntities i x y width height pth.1
    else (pth.1, [])
  (pe.1,
    { id := "room-" ++ toString i
      type := pt.2
      bounds := ⟨x, y, width, height⟩
      entities := pe.2
      metadata := ⟨(i : ℚ) / (roomCount : ℚ), pth.2⟩ },
    x + width, y + jsHalf height)

/-- The room loop: `n` rooms remaining, current index `i`, threading
    `lastX`/`lastY` and the RNG state. -/
def genRoomsAux (roomCount : ℕ) :
    ℕ → ℕ → ℤ → ℤ → SeededRandom → SeededRandom × List GeneratedRoom
  | 0, _, _, _, r => (r, [])
  | n + 1, i, lastX, lastY, r =>
      let p := genRoom roomCount i lastX lastY r
      let q := genRoomsAux roomCount n (i + 1) p.2.2.1 p.2.2.2 p.1
      (q.1, p.2.1 :: q.2)

/-- The sequential connection between two adjacent rooms of the room list. -/
def seqConnection (a b : GeneratedRoom) : RoomConnection :=
  { fromRoomId := a.id
    toRoomId := b.id
    fromDoor := ⟨a.bounds.x + a.bounds.width, a.bounds.y + jsHalf a.bounds.height⟩
    toDoor := ⟨b.bounds.x, b.bounds.y + jsHalf b.bounds.height⟩ }

/-- `for i in [0, rooms.length - 1)`: connect `rooms[i]` to `rooms[i+1]`. -/
def seqConnections : List GeneratedRoom → List RoomConnection
  | a :: b :: rest => seqConnection a b :: seqConnections (b :: rest)
  | _ => []

/-- One branching connection: two index draws, then reads of `rooms[fromIdx]`
    and `rooms[toIdx]`; an out-of-range index yields `none` (the source would
    throw dereferencing `undefined`). -/
def genBranchConn (rooms : List GeneratedRoom) (r : SeededRandom) :
    SeededRandom × Option RoomConnection :=
  let len : ℤ := rooms.length
  let pf := r.nextInt 0 (len - 3)
  let pt := pf.1.nextInt (pf.2 + 2) (len - 1)
  match rooms.get? pf.2.toNat, rooms.get? pt.2.toNat with
  | some a, some b =>
      (pt.1, some
        { fromRoomId := a.id
          toRoomId := b.id
          fromDoor := ⟨a.bounds.x + jsHalf a.bounds.width, a.bounds.y + a.bounds.height⟩
          toDoor := ⟨b.bounds.x + jsHalf b.bounds.width, b.bounds.y⟩ })
  | _, _ => (pt.1, none)

/-- The branching-connection loop; `none` when any iteration faulted. -/
def genBranchConnsAux (rooms : List GeneratedRoom) :
    ℕ → SeededRandom → Option (SeededRandom × List RoomConnection)
  | 0, r => some (r, [])
  | n + 1, r =>
      match genBranchConn rooms r with
      | (r1, some conn) =>
          match genBranchConnsAux rooms n r1 with
          | some (r2, rest) => some (r2, conn :: rest)
          | none => none
      | (_, none) => none

/-- One spawn point: a room pick over `rooms.slice(1)` (never the entrance),
    then type and coordinate draws; `none` when the room pick was out of
    bounds (the source would throw reading `room.bounds`). -/
def genSpawn (rooms : List GeneratedRoom) (i : ℕ) (r : SeededRandom) :
    SeededRandom × Option SpawnPoint :=
  let pr := r.pick (rooms.drop 1)
  match pr.2 with
  | none => (pr.1, none)
  | some room =>
      let pt := pr.1.pick ["enemy", "item", "npc"]
      let px := pt.1.nextInt 1 (room.bounds.width - 2)
      let py := px.1.nextInt 1 (room.bounds.height - 2)
      (py.1, some
        { id := "spawn-" ++ toString i
          type := pt.2
          position := ⟨room.bounds.x + px.2, room.bounds.y + py.2⟩
          roomId := room.id })

/-- The spawn-point loop; `none` when any iteration faulted. -/
def genSpawnsAux (rooms : List GeneratedRoom) :
    ℕ → ℕ → SeededRandom → Option (SeededRandom × List SpawnPoint)
  | 0, _, r => some (r, [])
  | n + 1, i, r =>
      match genSpawn rooms i r with
      | (r1, some sp) =>
          match genSpawnsAux rooms n (i + 1) r1 with
          | some (r2, rest) => some (r2, sp :: rest)
          | none => none
      | (_, none) => none

/-- Center of a room, used for `playerStart` and the exit position. -/
def roomCenter (room : GeneratedRoom) : Position :=
  ⟨room.bounds.x + jsHalf room.bounds.width, room.bounds.y + jsHalf room.bounds.height⟩

/-- The full procedural generator `generateDungeon(seed)`: room count draw,
    room loop, sequential connections, branching connections, spawn points,
    player start in the first room and exit in the last.  `none` models the
    runs on which the source throws a `TypeError` (only possible when some
    `next()` call returns exactly `1`). -/
def generateDungeon (seed : ℤ) : Option DungeonLayout :=
  let p0 := SeededRandom.nextInt ⟨seed⟩ 5 12
  let roomCount := p0.2.toNat
  let pr := genRoomsAux roomCount roomCount 0 0 0 p0.1
  let rooms := pr.2
  let conns := seqConnections rooms
  let pb := pr.1.nextInt 0 ((roomCount / 3 : ℕ) : ℤ)
  match genBranchConnsAux rooms pb.2.toNat pb.1 with
  | none => none
  | some qb =>
      let ps := qb.1.nextInt 3 8
      match genSpawnsAux rooms ps.2.toNat 0 ps.1 with
      | none => none
      | some qs =>
          match rooms with
          | [] => none
          | startRoom :: rest =>
              some
                { rooms := rooms
                  connections := conns ++ qb.2
                  spawnPoints := qs.2
                  playerStart := roomCenter startRoom
                  exits := [roomCenter ((startRoom :: rest).getLast (List.cons_ne_nil _ _))] }

/-! ## Single-run generation (`generate_once`) -/

/-- A generation request; the mock backend reads only `seed`. -/
structure GenerationRequest where
  generatorId : String
  seed : ℤ
  parameters : List (String × String)
deriving DecidableEq

structure ConstraintResult where
  constraintId : String
  passed : Bool
  message : String
deriving DecidableEq

structure GenerationMetadata where
  nodeExecutions : ℕ
  retryCount : ℕ
deriving DecidableEq

structure GenerationResult where
  seed : ℤ
  timestamp : ℤ
  success : Bool
  data : Option DungeonLayout
  constraintResults : List ConstraintResult
  metadata : GenerationMetadata
  errors : List String
  durationMs : ℤ
deriving DecidableEq

/-- `generate_once({request})`: runs `generateDungeon(request.seed)` and wraps
    it with hard-coded constraint verdicts.  `now` models `Date.now()` and
    `dur` the `performance.now()` difference; `none` models a rejected
    promise (the generator threw). -/
def generate_once (request : GenerationRequest) (now dur : ℤ) :
    Option GenerationResult :=
  match generateDungeon request.seed with
  | none => none
  | some dungeon =>
      some
        { seed := request.seed
          timestamp := now
          success := true
          data := some dungeon
          constraintResults :=
            [⟨"min-rooms", decide (5 ≤ dungeon.rooms.length),
                "Room count: " ++ toString dungeon.rooms.length⟩,
             ⟨"connected", true, "All rooms connected"⟩,
             ⟨"has-exit", decide (0 < dungeon.exits.length), "Exit exists"⟩]
          metadata := ⟨dungeon.rooms.length * 3, 0⟩
          errors := []
          durationMs := dur }

/-! ## Batch simulation (`run_simulation`) and statistics -/

structure SimulationConfig where
  generatorId : String
  runCount : ℕ
  seedStart : Option ℤ
deriving DecidableEq

structure Percentiles where
  p5 : Option ℚ
  p25 : Option ℚ
  p75 : Option ℚ
  p95 : Option ℚ
deriving DecidableEq

/-- Per-metric distribution summary.  `stdDev` is `Math.sqrt(variance)`, an
    irrational number in general, hence the one real-valued field. -/
structure DistributionStats where
  min : Option ℚ
  max : Option ℚ
  mean : ℚ
  median : Option ℚ
  stdDev : ℝ
  percentiles : Percentiles
  histogram : List (ℚ × ℕ)

/-- `values.reduce((a, b) => a + b, 0)`. -/
def jsSum (values : List ℚ) : ℚ := values.foldl (· + ·) 0

/-- `calcStats(values)` of `run_simulation`: ascending sort, then index-based
    order statistics.  `sorted[k]` for `k` out of bounds is JS `undefined`,
    here `none` (so the empty dataset yields `none` entries).  Percentile
    indices are `Math.floor(sorted.length * p)`. -/
noncomputable def calcStats (values : List ℚ) : DistributionStats :=
  let sorted := values.insertionSort (· ≤ ·)
  let sum := jsSum values
  let mean := sum / (values.length : ℚ)
  let variance :=
    (values.foldl (fun acc v => acc + (v - mean) ^ 2) 0) / (values.length : ℚ)
  { min := sorted.get? 0
    max := sorted.get? (sorted.length - 1)
    mean := mean
    median := sorted.get? (sorted.length / 2)
    stdDev := Real.sqrt (variance : ℝ)
    percentiles :=
      { p5 := sorted.get? (⌊(sorted.length : ℚ) * (5 / 100)⌋).toNat
        p25 := sorted.get? (⌊(sorted.length : ℚ) * (25 / 100)⌋).toNat
        p75 := sorted.get? (⌊(sorted.length : ℚ) * (75 / 100)⌋).toNat
        p95 := sorted.get? (⌊(sorted.length : ℚ) * (95 / 100)⌋).toNat }
    histogram := [] }

/-- Room-count metric of one run: `r.data?.rooms.length ?? 0`. -/
def roomCountOf (res : GenerationResult) : ℕ :=
  (res.data.map (fun d => d.rooms.length)).getD 0

/-- Path-length metric of one run: `r.data?.connections.length ?? 0`. -/
def pathLengthOf (res : GenerationResult) : ℕ :=
  (res.data.map (fun d => d.connections.length)).getD 0

/-- Enemy-count metric of one run: entities of type `enemy` over all rooms. -/
def enemyCountOf (res : GenerationResult) : ℕ :=
  match res.data with
  | none => 0
  | some d =>
      (d.rooms.map (fun room =>
        (room.entities.filter (fun e => e.type == some ("enemy"))).length)).foldl
        (· + ·) 0

structure ConstraintAggregate where
  passRate : ℚ
  violations : ℕ
deriving DecidableEq

structure SimulationStatistics where
  roomCount : DistributionStats
  pathLength : DistributionStats
  enemyCount : DistributionStats
  itemCount : DistributionStats

structure SimulationResults where
  config : SimulationConfig
  runs : ℕ
  successRate : ℚ
  durationMs : ℤ
  statistics : SimulationStatistics
  constraintResults : List (String × ConstraintAggregate)
  warnings : List String

/-- The run loop of `run_simulation`: `n` runs remaining, current index `i`,
    seed `config.seedStart ?? 0` plus the index.  `ts i` supplies the
    wall-clock values for run `i`; `none` when a run threw. -/
def runResultsAux (config : SimulationConfig) (ts : ℕ → ℤ × ℤ) :
    ℕ → ℕ → Option (List GenerationResult)
  | 0, _ => some []
  | n + 1, i =>
      match generate_once ⟨config.generatorId, config.seedStart.getD 0 + i, []⟩
          (ts i).1 (ts i).2 with
      | none => none
      | some res =>
          match runResultsAux config ts n (i + 1) with
          | none => none
          | some rest => some (res :: rest)

/-- The aggregation part of `run_simulation`, applied to the collected run
    results. -/
noncomputable def aggregateResults (config : SimulationConfig) (dur : ℤ)
    (results : List GenerationResult) : SimulationResults :=
  let roomCounts := results.map (fun r => (roomCountOf r : ℚ))
  let pathLengths := results.map (fun r => (pathLengthOf r : ℚ))
  let enemyCounts := results.map (fun r => (enemyCountOf r : ℚ))
  { config := config
    runs := config.runCount
    successRate :=
      ((results.filter (fun r => r.success)).length : ℚ) / (results.length : ℚ)
    durationMs := dur
    statistics :=
      { roomCount := calcStats roomCounts
        pathLength := calcStats pathLengths
        enemyCount := calcStats enemyCounts
        itemCount := calcStats (roomCounts.map (fun _ => 0)) }
    constraintResults := [("min-rooms", ⟨1, 0⟩), ("connected", ⟨1, 0⟩)]
    warnings := [] }

/-- `run_simulation({config})`: `config.runCount` sequential `generate_once`
    calls with seeds `seedStart ?? 0`, `seedStart + 1`, …, reduced by
    `aggregateResults`.  `none` models a rejected promise. -/
noncomputable def run_simulation (config : SimulationConfig) (ts : ℕ → ℤ × ℤ)
    (dur : ℤ) : Option SimulationResults :=
  match runResultsAux config ts config.runCount 0 with
  | none => none
  | some results => some (aggregateResults config dur results)

/-! ## Branch-weight editing (`BranchWeightsEditor` in the node properties
    panel) -/

namespace BranchWeightsEditor

/-- `addPath`: scale every weight by `1 - 1/(n+1)` and append `1/(n+1)`. -/
def addPath (weights : List ℚ) : List ℚ :=
  let newWeight : ℚ := 1 / ((weights.length : ℚ) + 1)
  weights.map (fun w => w * (1 - newWeight)) ++ [newWeight]

/-- `removePath(index)`: drop the entry (a no-op while at most two weights
    remain, the source returns before calling `onChange`), then divide the
    remaining weights by their sum. -/
def removePath (weights : List ℚ) (index : ℕ) : List ℚ :=
  if weights.length ≤ 2 then weights
  else
    let newWeights := weights.eraseIdx index
    let sum := jsSum newWeights
    newWeights.map (fun w => w / sum)

/-- `updateWeight(index, value)`: write `value / 100` at `index`, then divide
    every weight by the new sum. -/
def updateWeight (weights : List ℚ) (index : ℕ) (value : ℚ) : List ℚ :=
  let newWeights := weights.set index (value / 100)
  let sum := jsSum newWeights
  newWeights.map (fun w => w / sum)

end BranchWeightsEditor

/-! ## Constraint solver: the `connected` check

The repository ships the constraint solver in its Rust backend
(`src-tauri/src/commands/generation.rs`), which is not part of the visible
TypeScript sources; the browser mock hard-codes `passed: true` for the
`connected` constraint.  The checker below is therefore modelled from the
specification. -/

/-- Membership test of a point in an axis-aligned room rectangle. -/
def rectContains (b : Rectangle) (p : Position) : Bool :=
  decide (b.x ≤ p.x) && decide (p.x < b.x + b.width) &&
  decide (b.y ≤ p.y) && decide (p.y < b.y + b.height)

/-- The room containing `playerStart`, when one exists. -/
def startRoom? (L : DungeonLayout) : Option GeneratedRoom :=
  L.rooms.find? (fun room => rectContains room.bounds L.playerStart)

/-- Two room ids joined by some `RoomConnection`, in either direction. -/
def adjacentRooms (conns : List RoomConnection) (a b : String) : Bool :=
  conns.any (fun c =>
    (c.fromRoomId == a && c.toRoomId == b) ||
    (c.fromRoomId == b && c.toRoomId == a))

/-- One expansion round of the reachability search: add every room id
    adjacent to an already-reached id. -/
def expandReach (conns : List RoomConnection) (allIds : List String)
    (seen : List String) : List String :=
  seen ++ allIds.filter (fun id =>
    !seen.contains id && seen.any (fun s => adjacentRooms conns s id))

/-- Modelled from the spec: the set of room ids reachable from `start` via
    `RoomConnection`s (breadth-first closure; `rooms.length` rounds suffice
    on a layout with `rooms.length` rooms). -/
def reachSet (L : DungeonLayout) (start : String) : List String :=
  (expandReach L.connections (L.rooms.map (fun room => room.id)))^[L.rooms.length]
    [start]

/-- Modelled from the spec: the `connected` constraint — every room reachable
    from `playerStart` via `RoomConnection`s; any unreached room is a
    failure.  (Absent from `src/`: the mock backend returns `passed: true`
    unconditionally instead of evaluating this check.) -/
def connectedCheck (L : DungeonLayout) : Bool :=
  match startRoom? L with
  | none => false
  | some s => L.rooms.all (fun room => (reachSet L s.id).contains room.id)

/-- Reachability between room ids along `RoomConnection`s, as a relation:
    the transitive-reflexive closure of undirected adjacency. -/
def ReachableIn (conns : List RoomConnection) (a b : String) : Prop :=
  Relation.ReflTransGen (fun x y => adjacentRooms conns x y = true) a b

/-! ## Simulation runner cancellation

The cancellable simulation runner also lives in the Rust backend; the
`cancel_simulation` of the mock backend is a no-op and its `run_simulation`
has no cancellation points.  The runner below is modelled from the specification:
a cooperative cancellation flag is checked between run boundaries, an
in-flight run completes, accumulated partial results are discarded, and a
cancelled-state result is returned. -/

/-- Outcome of a cancellable simulation: either full `SimulationResults` or
    the cancelled-state result that replaces them. -/
inductive SimulationOutcome where
  | completed (results : SimulationResults)
  | cancelled

/-- The cooperative cancellation flag, parameterized by the first run
    boundary at which the flag is observed set (`none`: never). -/
def cancelObserved (cancelAt : Option ℕ) (i : ℕ) : Bool :=
  match cancelAt with
  | some k => decide (k ≤ i)
  | none => false

/-- Modelled from the spec: the simulation loop with a cancellation check at
    each run boundary.  On observation the accumulated `acc` is discarded
    and the cancelled-state outcome returned; otherwise run `i` executes to
    completion and is appended. -/
noncomputable def simulateAux (config : SimulationConfig) (ts : ℕ → ℤ × ℤ)
    (dur : ℤ) (cancelAt : Option ℕ) :
    ℕ → ℕ → List GenerationResult → Option SimulationOutcome
  | 0, _, acc => some (.completed (aggregateResults config dur acc))
  | n + 1, i, acc =>
      if cancelObserved cancelAt i then some .cancelled
      else
        match generate_once ⟨config.generatorId, config.seedStart.getD 0 + i, []⟩
            (ts i).1 (ts i).2 with
        | none => none
        | some res => simulateAux config ts dur cancelAt n (i + 1) (acc ++ [res])

/-- Modelled from the spec: `run_simulation` with cooperative cancellation
    (absent from `src/`; the mock runs all `runCount` runs unconditionally
    and `cancel_simulation` is a no-op). -/
noncomputable def runSimulationCancellable (config : SimulationConfig)
    (ts : ℕ → ℤ × ℤ) (dur : ℤ) (cancelAt : Option ℕ) :
    Option SimulationOutcome :=
  simulateAux config ts dur cancelAt config.runCount 0 []

/-! ## Auxiliary definitions for the statements -/

/-- Percentile index as worded by the specification:
    `index = floor(p * (n - 1))`. -/
def specPercentileIndex (n : ℕ) (p : ℚ) : ℕ := (⌊p * ((n : ℚ) - 1)⌋).toNat

/-- Percentile index as computed by `calcStats`:
    `Math.floor(sorted.length * p)`. -/
def codePercentileIndex (n : ℕ) (p : ℚ) : ℕ := (⌊(n : ℚ) * p⌋).toNat

/-- Reachability along directed `RoomConnection` links, as a relation on room
    ids: the reflexive-transitive closure of the step relation that holds
    between `a` and `b` when some listed connection goes from `a` to `b`. -/
def DirectedReach (conns : List RoomConnection) (a b : String) : Prop :=
  Relation.ReflTransGen
    (fun a b => ∃ c ∈ conns, c.fromRoomId = a ∧ c.toRoomId = b) a b

/-- A two-room layout with no connections at all: `room-b` is isolated from
    `room-a`, which contains `playerStart`. -/
def isolatedLayout : DungeonLayout :=
  { rooms :=
      [⟨"room-a", some ("chamber"), ⟨0, 0, 4, 4⟩, [], ⟨0, none⟩⟩,
       ⟨"room-b", some ("chamber"), ⟨10, 0, 4, 4⟩, [], ⟨0, none⟩⟩]
    connections := []
    spawnPoints := []
    playerStart := ⟨1, 1⟩
    exits := [] }

/-! ## The binary64 state update: range and the unreachable mask value -/

theorem jsStep_def (s : ℤ) :
    jsStep s = fl64 (fl64 (s * 1103515245) + 12345) % (2 ^ 31) := by
  cases s <;> rfl

theorem ulpExp_eq_zero (v : ℤ) (h : v.natAbs < 2 ^ 53) : ulpExp v = 0 := by
  unfold ulpExp
  rw [if_pos (by omega)]

theorem natAbs_lt_of_ulpExp_eq_zero (v : ℤ) (h : ulpExp v = 0) :
    v.natAbs < 2 ^ 53 := by
  by_contra hc
  unfold ulpExp at h
  rcases Nat.lt_or_ge v.natAbs (2 ^ 54) with hlt | hge
  · rw [if_neg (by omega), if_pos (by omega)] at h
    exact absurd h (by decide)
  · rw [if_neg (by omega), if_neg (by omega)] at h
    omega

theorem ulpExp_eq_one (v : ℤ) (h1 : 2 ^ 53 ≤ v.natAbs) (h2 : v.natAbs < 2 ^ 54) :
    ulpExp v = 1 := by
  unfold ulpExp
  rw [if_neg (by omega), if_pos (by omega)]

theorem two_le_ulpExp (v : ℤ) (h : 2 ^ 54 ≤ v.natAbs) : 2 ≤ ulpExp v := by
  unfold ulpExp
  rw [if_neg (by omega), if_neg (by omega)]
  omega

theorem roundEven_zero (v : ℤ) : roundEven v 0 = v := by
  unfold roundEven
  norm_num

theorem roundEven_dvd (v : ℤ) (e : ℕ) : (2 ^ e : ℤ) ∣ roundEven v e := by
  unfold roundEven
  split_ifs <;> exact dvd_mul_left _ _

theorem roundEven_one_cases (v : ℤ) :
    roundEven v 1 = v ∨ roundEven v 1 = v - 1 ∨ roundEven v 1 = v + 1 := by
  unfold roundEven
  split_ifs <;> omega

theorem fl64_small (v : ℤ) (h : v.natAbs < 2 ^ 53) : fl64 v = v := by
  unfold fl64
  rw [ulpExp_eq_zero v h, roundEven_zero]

theorem fl64_dvd (v : ℤ) : (2 ^ ulpExp v : ℤ) ∣ fl64 v := roundEven_dvd v (ulpExp v)

theorem lcg_coprime : IsCoprime (2 ^ 31 : ℤ) 1103515245 := by
  rw [Int.isCoprime_iff_gcd_eq_one]
  norm_num

theorem emod_max_dvd (w : ℤ) (h : w % 2 ^ 31 = 2 ^ 31 - 1) :
    (2 ^ 31 : ℤ) ∣ w + 1 := by
  omega

theorem lcg_parity_excl (w : ℤ) (h2 : (2 : ℤ) ∣ w) (h31 : (2 ^ 31 : ℤ) ∣ w + 1) :
    False := by omega

theorem lcg_four_excl (u : ℤ) (h4 : (4 : ℤ) ∣ u)
    (h31 : (2 ^ 31 : ℤ) ∣ u + 12345 + 1) : False := by omega

theorem lcg_small_excl (s : ℤ) (hb : s.natAbs * 1103515245 < 2 ^ 53)
    (hd : (2 ^ 31 : ℤ) ∣ s - 230538014) : False := by omega

theorem lcg_mid_excl₁ (s : ℤ) (hlo : 2 ^ 53 ≤ s.natAbs * 1103515245)
    (hhi : s.natAbs * 1103515245 < 2 ^ 54)
    (hd : (2 ^ 31 : ℤ) ∣ s - 230538014) : False := by omega

theorem lcg_mid_excl₂ (s : ℤ) (hlo : 2 ^ 53 ≤ s.natAbs * 1103515245)
    (hhi : s.natAbs * 1103515245 < 2 ^ 54)
    (hd : (2 ^ 31 : ℤ) ∣ s - 2088216195) : False := by omega

theorem lcg_mid_excl₃ (s : ℤ) (hlo : 2 ^ 53 ≤ s.natAbs * 1103515245)
    (hhi : s.natAbs * 1103515245 < 2 ^ 54)
    (hd : (2 ^ 31 : ℤ) ∣ s - 520343481) : False := by omega

/-- No integer state steps to the masked value `0x7fffffff`.  Case split on
    the two rounding regimes of the product and of the sum: when both are
    exact the unique residue of `s` forced by the congruence falls outside
    the exact regime `|s| * 1103515245 < 2 ^ 53`; when the product rounds at
    unit in the last place `2`, the three possible rounded values force one
    of three residues, each outside the window `[2 ^ 53, 2 ^ 54)`; when the
    product rounds at unit `4` or more, or the sum rounds at all, the result
    is divisible by `4` (excluding the residue of `-12346` modulo `2 ^ 31`)
    or even (while `0x7fffffff` is odd). -/
theorem jsStep_ne_max (s : ℤ) : jsStep s ≠ 2 ^ 31 - 1 := by
  rw [jsStep_def]
  intro h
  have hdvd : (2 ^ 31 : ℤ) ∣ fl64 (fl64 (s * 1103515245) + 12345) + 1 := emod_max_dvd _ h
  clear h
  rcases Nat.eq_zero_or_pos (ulpExp (fl64 (s * 1103515245) + 12345)) with he2 | he2
  · -- the outer rounding is exact: the sum is below 2 ^ 53 in magnitude
    rw [fl64_small _ (natAbs_lt_of_ulpExp_eq_zero _ he2)] at hdvd
    have hmul : (s * 1103515245).natAbs = s.natAbs * 1103515245 := by
      rw [Int.natAbs_mul]
      rfl
    by_cases hp1 : (s * 1103515245).natAbs < 2 ^ 53
    · -- the inner rounding is exact as well
      rw [fl64_small _ hp1] at hdvd
      have hdvd2 : (2 ^ 31 : ℤ) ∣ s * 1103515245 + 12346 := by
        rwa [show (s * 1103515245 + 12345) + 1 = s * 1103515245 + 12346 from by ring] at hdvd
      have hdvd3 : (2 ^ 31 : ℤ) ∣ (s - 230538014) * 1103515245 := by
        rw [show ((s - 230538014) * 1103515245 : ℤ) =
            (s * 1103515245 + 12346) - 2 ^ 31 * 118465262 from by ring]
        exact dvd_sub hdvd2 (dvd_mul_right _ _)
      exact lcg_small_excl s (hmul ▸ hp1) (lcg_coprime.dvd_of_dvd_mul_right hdvd3)
    · by_cases hp2 : (s * 1103515245).natAbs < 2 ^ 54
      · -- ulp-2 regime: the rounded product differs from the product by at most 1
        have hcases : fl64 (s * 1103515245) = s * 1103515245 ∨
            fl64 (s * 1103515245) = s * 1103515245 - 1 ∨
            fl64 (s * 1103515245) = s * 1103515245 + 1 := by
          unfold fl64
          rw [ulpExp_eq_one _ (Nat.le_of_not_lt hp1) hp2]
          exact roundEven_one_cases _
        have hlo : 2 ^ 53 ≤ s.natAbs * 1103515245 := hmul ▸ Nat.le_of_not_lt hp1
        have hhi : s.natAbs * 1103515245 < 2 ^ 54 := hmul ▸ hp2
        rcases hcases with h3 | h3 | h3 <;> rw [h3] at hdvd
        · have hdvd2 : (2 ^ 31 : ℤ) ∣ s * 1103515245 + 12346 := by
            rwa [show (s * 1103515245 + 12345) + 1 = s * 1103515245 + 12346 from by ring]
              at hdvd
          have hdvd3 : (2 ^ 31 : ℤ) ∣ (s - 230538014) * 1103515245 := by
            rw [show ((s - 230538014) * 1103515245 : ℤ) =
                (s * 1103515245 + 12346) - 2 ^ 31 * 118465262 from by ring]
            exact dvd_sub hdvd2 (dvd_mul_right _ _)
          exact lcg_mid_excl₁ s hlo hhi (lcg_coprime.dvd_of_dvd_mul_right hdvd3)
        · have hdvd2 : (2 ^ 31 : ℤ) ∣ s * 1103515245 + 12345 := by
            rwa [show (s * 1103515245 - 1 + 12345) + 1 = s * 1103515245 + 12345 from by ring]
              at hdvd
          have hdvd3 : (2 ^ 31 : ℤ) ∣ (s - 2088216195) * 1103515245 := by
            rw [show ((s - 2088216195) * 1103515245 : ℤ) =
                (s * 1103515245 + 12345) - 2 ^ 31 * 1073059815 from by ring]
            exact dvd_sub hdvd2 (dvd_mul_right _ _)
          exact lcg_mid_excl₂ s hlo hhi (lcg_coprime.dvd_of_dvd_mul_right hdvd3)
        · have hdvd2 : (2 ^ 31 : ℤ) ∣ s * 1103515245 + 12347 := by
            rwa [show (s * 1103515245 + 1 + 12345) + 1 = s * 1103515245 + 12347 from by ring]
              at hdvd
          have hdvd3 : (2 ^ 31 : ℤ) ∣ (s - 520343481) * 1103515245 := by
            rw [show ((s - 520343481) * 1103515245 : ℤ) =
                (s * 1103515245 + 12347) - 2 ^ 31 * 267385954 from by ring]
            exact dvd_sub hdvd2 (dvd_mul_right _ _)
          exact lcg_mid_excl₃ s hlo hhi (lcg_coprime.dvd_of_dvd_mul_right hdvd3)
      · -- ulp at least 4: the rounded product is divisible by 4
        have hdvd_u : (4 : ℤ) ∣ fl64 (s * 1103515245) := by
          refine dvd_trans ?_ (fl64_dvd (s * 1103515245))
          rw [show (4 : ℤ) = 2 ^ 2 from by norm_num]
          exact pow_dvd_pow 2 (two_le_ulpExp _ (Nat.le_of_not_lt hp2))
        exact lcg_four_excl _ hdvd_u hdvd
  · -- the outer rounding is coarse: its result is even, but the target is odd
    have hdvd_w : (2 : ℤ) ∣ fl64 (fl64 (s * 1103515245) + 12345) := by
      refine dvd_trans ?_ (fl64_dvd _)
      exact dvd_pow_self 2 (by omega)
    exact lcg_parity_excl _ hdvd_w hdvd

theorem jsStep_nonneg (s : ℤ) : 0 ≤ jsStep s := by
  rw [jsStep_def]
  exact Int.emod_nonneg _ (by norm_num)

theorem jsStep_lt (s : ℤ) : jsStep s < 2 ^ 31 := by
  rw [jsStep_def]
  exact Int.emod_lt_of_pos _ (by norm_num)

theorem jsStep_le (s : ℤ) : jsStep s ≤ 2 ^ 31 - 2 := by
  have h1 := jsStep_lt s
  have h2 := jsStep_ne_max s
  omega

/-! ## RNG range lemmas -/

theorem next_snd_eq (r : SeededRandom) :
    (r.next).2 = ((jsStep r.seed : ℤ) : ℚ) / (lcgMax : ℚ) := rfl

theorem next_nonneg (r : SeededRandom) : 0 ≤ (r.next).2 := by
  rw [next_snd_eq]
  apply div_nonneg
  · exact_mod_cast jsStep_nonneg r.seed
  · norm_num [lcgMax]

theorem next_lt_one (r : SeededRandom) : (r.next).2 < 1 := by
  rw [next_snd_eq]
  rw [div_lt_one (by norm_num [lcgMax])]
  have h2 : jsStep r.seed < lcgMax := by
    have h := jsStep_le r.seed
    simp only [lcgMax]
    omega
  exact_mod_cast h2

theorem next_le_one (r : SeededRandom) : (r.next).2 ≤ 1 :=
  le_of_lt (next_lt_one r)

theorem nextInt_snd_eq (r : SeededRandom) (lo hi : ℤ) :
    (r.nextInt lo hi).2 = ⌊(r.next).2 * ((hi - lo + 1 : ℤ) : ℚ)⌋ + lo := rfl

theorem nextInt_le_of_lt_one (r : SeededRandom) (lo hi : ℤ) (hlohi : lo ≤ hi)
    (hq : (r.next).2 < 1) : (r.nextInt lo hi).2 ≤ hi := by
  rw [nextInt_snd_eq]
  have hn : (0 : ℚ) < ((hi - lo + 1 : ℤ) : ℚ) := by exact_mod_cast (by omega : (0 : ℤ) < hi - lo + 1)
  have hlt : (r.next).2 * ((hi - lo + 1 : ℤ) : ℚ) < ((hi - lo + 1 : ℤ) : ℚ) :=
    mul_lt_of_lt_one_left hn hq
  have := Int.floor_lt.mpr hlt
  omega

theorem nextInt_bounds (r : SeededRandom) (lo hi : ℤ) (hlohi : lo ≤ hi) :
    lo ≤ (r.nextInt lo hi).2 ∧ (r.nextInt lo hi).2 ≤ hi + 1 := by
  rw [nextInt_snd_eq]
  have hn : (0 : ℚ) ≤ ((hi - lo + 1 : ℤ) : ℚ) := by exact_mod_cast (by omega : (0 : ℤ) ≤ hi - lo + 1)
  constructor
  · have h0 : (0 : ℤ) ≤ ⌊(r.next).2 * ((hi - lo + 1 : ℤ) : ℚ)⌋ := by
      rw [Int.le_floor]
      exact_mod_cast mul_nonneg (next_nonneg r) hn
    omega
  · have hle : (r.next).2 * ((hi - lo + 1 : ℤ) : ℚ) ≤ ((hi - lo + 1 : ℤ) : ℚ) :=
      mul_le_of_le_one_left hn (next_le_one r)
    have := Int.floor_le_floor hle
    rw [Int.floor_intCast] at this
    omega

theorem pick_mem {α : Type} (r : SeededRandom) (xs : List α) (hne : xs ≠ [])
    (hq : (r.next).2 < 1) : ∃ a ∈ xs, (r.pick xs).2 = some a := by
  have hlen : 0 < xs.length := List.length_pos.mpr hne
  have hn : (0 : ℚ) < (xs.length : ℚ) := by exact_mod_cast hlen
  have hlt : (r.next).2 * (xs.length : ℚ) < (xs.length : ℚ) :=
    mul_lt_of_lt_one_left hn hq
  have hfl : ⌊(r.next).2 * (xs.length : ℚ)⌋ < (xs.length : ℤ) := by
    rw [Int.floor_lt]; exact_mod_cast hlt
  have h0 : (0 : ℤ) ≤ ⌊(r.next).2 * (xs.length : ℚ)⌋ := by
    rw [Int.le_floor]
    exact_mod_cast mul_nonneg (next_nonneg r) (le_of_lt hn)
  have hidx : (⌊(r.next).2 * (xs.length : ℚ)⌋).toNat < xs.length := by omega
  refine ⟨xs.get ⟨(⌊(r.next).2 * (xs.length : ℚ)⌋).toNat, hidx⟩, List.get_mem _ _ _, ?_⟩
  show xs.get? _ = _
  exact List.get?_eq_get hidx

/-! ## C9: RNG output ranges -/

/-- C9: for every internal state of the RNG, `next()` lies in the half-open
    interval `[0, 1)`; consequently `nextInt(min, max)` with `min ≤ max`
    returns an integer in the closed interval `[min, max]`, and `pick` of a
    non-empty array returns an element of the array — never an
    out-of-bounds read.  The strict upper bound rests on `jsStep_ne_max`:
    under the binary64 rounding of the product and the sum, no integer
    state reaches the masked value `0x7fffffff`. -/
theorem c9_rng_unit_interval {α : Type} (r : SeededRandom) (lo hi : ℤ)
    (xs : List α) (hlohi : lo ≤ hi) (hne : xs ≠ []) :
    (0 ≤ (r.next).2 ∧ (r.next).2 < 1) ∧
    (lo ≤ (r.nextInt lo hi).2 ∧ (r.nextInt lo hi).2 ≤ hi) ∧
    (∃ a ∈ xs, (r.pick xs).2 = some a) :=
  ⟨⟨next_nonneg r, next_lt_one r⟩,
    ⟨(nextInt_bounds r lo hi hlohi).1, nextInt_le_of_lt_one r lo hi hlohi (next_lt_one r)⟩,
    pick_mem r xs hne (next_lt_one r)⟩

/-- C9, witness: the bounds at state `1`, range `[0, 5]` and a
    three-element array. -/
theorem c9_rng_unit_interval_witness :
    ((0 : ℤ) ≤ 5 ∧ (["a", "b", "c"] : List String) ≠ []) ∧
    ((0 ≤ (SeededRandom.next ⟨1⟩).2 ∧ (SeededRandom.next ⟨1⟩).2 < 1) ∧
     (0 ≤ (SeededRandom.nextInt ⟨1⟩ 0 5).2 ∧ (SeededRandom.nextInt ⟨1⟩ 0 5).2 ≤ 5) ∧
     (∃ a ∈ (["a", "b", "c"] : List String), (SeededRandom.pick ⟨1⟩ ["a", "b", "c"]).2 = some a)) :=
  ⟨⟨by decide, by decide⟩,
    c9_rng_unit_interval ⟨1⟩ 0 5 ["a", "b", "c"] (by decide) (by decide)⟩

/-! ## C1 and C2: determinism of `generate_once` -/

theorem generate_once_bind_data (request : GenerationRequest) (now dur : ℤ) :
    (generate_once request now dur).bind (fun g => g.data) =
    generateDungeon request.seed := by
  unfold generate_once
  cases generateDungeon request.seed
  · rfl
  · rfl

/-- C1: two `generate_once` calls with the same request (same generator id,
    same seed, same parameters) yield structurally identical
    `DungeonLayout`s, whatever the wall-clock inputs of the two calls: same
    room list, same connections, same spawn points, same player start, same
    exits. -/
theorem c1_generate_once_deterministic (request : GenerationRequest)
    (t₁ d₁ t₂ d₂ : ℤ) (L₁ L₂ : DungeonLayout)
    (h₁ : (generate_once request t₁ d₁).bind (fun g => g.data) = some L₁)
    (h₂ : (generate_once request t₂ d₂).bind (fun g => g.data) = some L₂) :
    L₁.rooms = L₂.rooms ∧ L₁.connections = L₂.connections ∧
    L₁.spawnPoints = L₂.spawnPoints ∧ L₁.playerStart = L₂.playerStart ∧
    L₁.exits = L₂.exits := by
  rw [generate_once_bind_data] at h₁ h₂
  have h := Option.some.inj (h₁.symm.trans h₂)
  rw [h]
  exact ⟨rfl, rfl, rfl, rfl, rfl⟩

/-- C1, witness: the determinism theorem applied to the request with seed `1`
    and two different wall-clock environments. -/
theorem c1_generate_once_deterministic_witness :
    ∃ L₁ L₂, (generate_once ⟨"dungeon", 1, []⟩ 0 0).bind (fun g => g.data) = some L₁ ∧
      (generate_once ⟨"dungeon", 1, []⟩ 5 7).bind (fun g => g.data) = some L₂ ∧
      (L₁.rooms = L₂.rooms ∧ L₁.connections = L₂.connections ∧
       L₁.spawnPoints = L₂.spawnPoints ∧ L₁.playerStart = L₂.playerStart ∧
       L₁.exits = L₂.exits) := by
  obtain ⟨L₁, h₁⟩ := Option.isSome_iff_exists.mp
    (show ((generate_once ⟨"dungeon", 1, []⟩ 0 0).bind (fun g => g.data)).isSome by
      with_unfolding_all decide)
  obtain ⟨L₂, h₂⟩ := Option.isSome_iff_exists.mp
    (show ((generate_once ⟨"dungeon", 1, []⟩ 5 7).bind (fun g => g.data)).isSome by
      with_unfolding_all decide)
  exact ⟨L₁, L₂, h₁, h₂, c1_generate_once_deterministic _ 0 0 5 7 L₁ L₂ h₁ h₂⟩

/-- C2: the generated layout is a function of the seed alone — two requests
    with the same seed but arbitrary generator ids and parameters produce
    the same layout (the mock backend reads only `request.seed`). -/
theorem c2_layout_depends_only_on_seed (r₁ r₂ : GenerationRequest)
    (t₁ d₁ t₂ d₂ : ℤ) (hseed : r₁.seed = r₂.seed) :
    (generate_once r₁ t₁ d₁).bind (fun g => g.data) =
    (generate_once r₂ t₂ d₂).bind (fun g => g.data) := by
  rw [generate_once_bind_data, generate_once_bind_data, hseed]

/-- C2, witness: two requests that share only the seed `42` — different
    generator ids, different parameters, different wall-clock inputs. -/
theorem c2_layout_depends_only_on_seed_witness :
    ((⟨"graph-a", 42, [("difficulty", "hard")]⟩ : GenerationRequest).seed =
      (⟨"graph-b", 42, []⟩ : GenerationRequest).seed) ∧
    (generate_once ⟨"graph-a", 42, [("difficulty", "hard")]⟩ 0 0).bind (fun g => g.data) =
      (generate_once ⟨"graph-b", 42, []⟩ 100 3).bind (fun g => g.data) :=
  ⟨rfl, c2_layout_depends_only_on_seed _ _ 0 0 100 3 rfl⟩

/-! ## C5: statistics on the fixed dataset `[1, 2, 3, 4, 5]` -/

/-- C5: on the dataset `[1, 2, 3, 4, 5]` the statistics report `mean = 3`,
    `median = 3`, `min = 1`, `max = 5`, and `p25 = 2`, `p75 = 4`, which are
    the sorted values at the documented indices
    `floor(0.25 * (5 - 1)) = 1` and `floor(0.75 * (5 - 1)) = 3`. -/
theorem c5_statistics_fixed_dataset :
    (calcStats [1, 2, 3, 4, 5]).mean = 3 ∧
    (calcStats [1, 2, 3, 4, 5]).median = some 3 ∧
    (calcStats [1, 2, 3, 4, 5]).min = some 1 ∧
    (calcStats [1, 2, 3, 4, 5]).max = some 5 ∧
    (calcStats [1, 2, 3, 4, 5]).percentiles.p25 = some 2 ∧
    (calcStats [1, 2, 3, 4, 5]).percentiles.p75 = some 4 ∧
    specPercentileIndex 5 (25 / 100) = 1 ∧
    specPercentileIndex 5 (75 / 100) = 3 ∧
    ([(1 : ℚ), 2, 3, 4, 5].insertionSort (· ≤ ·)).get? 1 = some 2 ∧
    ([(1 : ℚ), 2, 3, 4, 5].insertionSort (· ≤ ·)).get? 3 = some 4 := by
  with_unfolding_all decide

/-! ## C4: percentile indexing -/

theorem codePercentileIndex_lt (n : ℕ) (p : ℚ) (hp0 : 0 ≤ p) (hp1 : p < 1)
    (hn : 0 < n) : codePercentileIndex n p < n := by
  have hnq : (0 : ℚ) < (n : ℚ) := by exact_mod_cast hn
  have hlt : (n : ℚ) * p < (n : ℚ) := mul_lt_of_lt_one_right hnq hp1
  have hfl : ⌊(n : ℚ) * p⌋ < (n : ℤ) := Int.floor_lt.mpr (by exact_mod_cast hlt)
  have h0 : (0 : ℤ) ≤ ⌊(n : ℚ) * p⌋ :=
    Int.le_floor.mpr (by exact_mod_cast mul_nonneg (le_of_lt hnq) hp0)
  unfold codePercentileIndex
  omega

theorem sorted_get?_mem (values : List ℚ) (k : ℕ) (hk : k < values.length) :
    ∃ v, (values.insertionSort (· ≤ ·)).get? k = some v ∧ v ∈ values := by
  have hk2 : k < (values.insertionSort (· ≤ ·)).length := by
    rw [List.length_insertionSort]; exact hk
  exact ⟨_, List.get?_eq_get hk2,
    (List.perm_insertionSort (· ≤ ·) values).subset (List.get_mem _ _ _)⟩

/-- C4, counterexample: the claim states percentiles are read at index
    `floor(p * (n - 1))`.  On the dataset `[1, 2, 3, 4]` the code reports
    `p25 = 2` (index `floor(4 * 0.25) = 1` of the sorted array), while the
    documented formula gives index `floor(0.25 * 3) = 0`, i.e. the value
    `1`. -/
theorem c4_percentile_index_counterexample :
    (calcStats [1, 2, 3, 4]).percentiles.p25 = some 2 ∧
    ([(1 : ℚ), 2, 3, 4].insertionSort (· ≤ ·)).get?
      (specPercentileIndex 4 (25 / 100)) = some 1 ∧
    (calcStats [1, 2, 3, 4]).percentiles.p25 ≠
      ([(1 : ℚ), 2, 3, 4].insertionSort (· ≤ ·)).get?
        (specPercentileIndex 4 (25 / 100)) := by
  with_unfolding_all decide

/-- C4, amended: for every non-empty dataset of length `n`, each percentile
    `p ∈ {0.05, 0.25, 0.75, 0.95}` is reported as the element of the
    ascending-sorted values at index `floor(n * p)` (not
    `floor(p * (n - 1))`); that index is always in range, so each reported
    percentile is a value from the dataset. -/
theorem c4_percentile_index_amended (values : List ℚ) (h : values ≠ []) :
    ((calcStats values).percentiles.p5 =
        (values.insertionSort (· ≤ ·)).get? (codePercentileIndex values.length (5 / 100)) ∧
     (calcStats values).percentiles.p25 =
        (values.insertionSort (· ≤ ·)).get? (codePercentileIndex values.length (25 / 100)) ∧
     (calcStats values).percentiles.p75 =
        (values.insertionSort (· ≤ ·)).get? (codePercentileIndex values.length (75 / 100)) ∧
     (calcStats values).percentiles.p95 =
        (values.insertionSort (· ≤ ·)).get? (codePercentileIndex values.length (95 / 100))) ∧
    (codePercentileIndex values.length (5 / 100) < values.length ∧
     codePercentileIndex values.length (25 / 100) < values.length ∧
     codePercentileIndex values.length (75 / 100) < values.length ∧
     codePercentileIndex values.length (95 / 100) < values.length) ∧
    ((∃ v, (calcStats values).percentiles.p5 = some v ∧ v ∈ values) ∧
     (∃ v, (calcStats values).percentiles.p25 = some v ∧ v ∈ values) ∧
     (∃ v, (calcStats values).percentiles.p75 = some v ∧ v ∈ values) ∧
     (∃ v, (calcStats values).percentiles.p95 = some v ∧ v ∈ values)) := by
  have hn : 0 < values.length := List.length_pos.mpr h
  have e5 : (calcStats values).percentiles.p5 =
      (values.insertionSort (· ≤ ·)).get? (codePercentileIndex values.length (5 / 100)) := by
    rw [← List.length_insertionSort (· ≤ ·) values]; rfl
  have e25 : (calcStats values).percentiles.p25 =
      (values.insertionSort (· ≤ ·)).get? (codePercentileIndex values.length (25 / 100)) := by
    rw [← List.length_insertionSort (· ≤ ·) values]; rfl
  have e75 : (calcStats values).percentiles.p75 =
      (values.insertionSort (· ≤ ·)).get? (codePercentileIndex values.length (75 / 100)) := by
    rw [← List.length_insertionSort (· ≤ ·) values]; rfl
  have e95 : (calcStats values).percentiles.p95 =
      (values.insertionSort (· ≤ ·)).get? (codePercentileIndex values.length (95 / 100)) := by
    rw [← List.length_insertionSort (· ≤ ·) values]; rfl
  have l5 := codePercentileIndex_lt values.length (5 / 100) (by norm_num) (by norm_num) hn
  have l25 := codePercentileIndex_lt values.length (25 / 100) (by norm_num) (by norm_num) hn
  have l75 := codePercentileIndex_lt values.length (75 / 100) (by norm_num) (by norm_num) hn
  have l95 := codePercentileIndex_lt values.length (95 / 100) (by norm_num) (by norm_num) hn
  refine ⟨⟨e5, e25, e75, e95⟩, ⟨l5, l25, l75, l95⟩, ?_, ?_, ?_, ?_⟩
  · rw [e5]; exact sorted_get?_mem values _ l5
  · rw [e25]; exact sorted_get?_mem values _ l25
  · rw [e75]; exact sorted_get?_mem values _ l75
  · rw [e95]; exact sorted_get?_mem values _ l95

/-- C4, witness: the amended indexing on the dataset `[1, 2, 3, 4]`. -/
theorem c4_percentile_index_amended_witness :
    ([(1 : ℚ), 2, 3, 4] ≠ ([] : List ℚ)) ∧
    ((calcStats [1, 2, 3, 4]).percentiles.p25 =
      ([(1 : ℚ), 2, 3, 4].insertionSort (· ≤ ·)).get?
        (codePercentileIndex ([(1 : ℚ), 2, 3, 4]).length (25 / 100))) ∧
    codePercentileIndex ([(1 : ℚ), 2, 3, 4]).length (25 / 100) <
      ([(1 : ℚ), 2, 3, 4]).length := by
  refine ⟨by decide, ?_, ?_⟩
  · exact ((c4_percentile_index_amended [1, 2, 3, 4] (by decide)).1).2.1
  · exact (((c4_percentile_index_amended [1, 2, 3, 4] (by decide)).2).1).2.1

/-! ## C8: branch-weight normalization -/

theorem jsSum_eq_sum (l : List ℚ) : jsSum l = l.sum := List.sum_eq_foldl.symm

theorem jsSum_append (l₁ l₂ : List ℚ) : jsSum (l₁ ++ l₂) = jsSum l₁ + jsSum l₂ := by
  simp [jsSum_eq_sum]

theorem jsSum_map_mul (l : List ℚ) (c : ℚ) :
    jsSum (l.map (fun w => w * c)) = jsSum l * c := by
  simp only [jsSum_eq_sum]
  induction l with
  | nil => simp
  | cons a t ih => simp [List.map_cons, List.sum_cons, ih, add_mul]

theorem jsSum_map_div (l : List ℚ) (S : ℚ) :
    jsSum (l.map (fun w => w / S)) = jsSum l / S := by
  simp only [div_eq_mul_inv]
  exact jsSum_map_mul l S⁻¹

/-- C8, counterexample: the claim states every operation returns weights
    summing to `1` within `1e-9`.  `addPath` on the input vector `[2, 2]`
    (sum `4`) returns `[4/3, 4/3, 1/3]`, whose sum is `3`. -/
theorem c8_weight_normalization_counterexample :
    BranchWeightsEditor.addPath [2, 2] = [4 / 3, 4 / 3, 1 / 3] ∧
    jsSum (BranchWeightsEditor.addPath [2, 2]) = 3 ∧
    ¬ |jsSum (BranchWeightsEditor.addPath [2, 2]) - 1| ≤ 1 / 1000000000 := by
  with_unfolding_all decide

/-- C8, amended: `updateWeight` (when the post-edit sum is nonzero) and
    `removePath` (when more than two weights are present and the remaining
    sum is nonzero) return vectors summing to exactly `1` and preserve the
    relative ratios of the entries that were not directly edited; `addPath`
    preserves the relative ratios of all existing entries but returns a
    vector summing to `1` only when the input already sums to `1`. -/
theorem c8_weight_normalization_amended (weights : List ℚ) (index : ℕ) (value : ℚ) :
    (jsSum (weights.set index (value / 100)) ≠ 0 →
      jsSum (BranchWeightsEditor.updateWeight weights index value) = 1) ∧
    (∀ i j a b, i ≠ index → j ≠ index →
      weights.get? i = some a → weights.get? j = some b →
      ∃ x y, (BranchWeightsEditor.updateWeight weights index value).get? i = some x ∧
        (BranchWeightsEditor.updateWeight weights index value).get? j = some y ∧
        x * b = y * a) ∧
    (2 < weights.length → jsSum (weights.eraseIdx index) ≠ 0 →
      jsSum (BranchWeightsEditor.removePath weights index) = 1) ∧
    (2 < weights.length → ∀ i j a b,
      (weights.eraseIdx index).get? i = some a →
      (weights.eraseIdx index).get? j = some b →
      ∃ x y, (BranchWeightsEditor.removePath weights index).get? i = some x ∧
        (BranchWeightsEditor.removePath weights index).get? j = some y ∧
        x * b = y * a) ∧
    (jsSum weights = 1 → jsSum (BranchWeightsEditor.addPath weights) = 1) ∧
    (∀ i j a b, weights.get? i = some a → weights.get? j = some b →
      ∃ x y, (BranchWeightsEditor.addPath weights).get? i = some x ∧
        (BranchWeightsEditor.addPath weights).get? j = some y ∧
        x * b = y * a) := by
  refine ⟨?_, ?_, ?_, ?_, ?_, ?_⟩
  · intro hS
    simp only [BranchWeightsEditor.updateWeight]
    rw [jsSum_map_div, div_self hS]
  · intro i j a b hi hj ha hb
    refine ⟨a / jsSum (weights.set index (value / 100)),
      b / jsSum (weights.set index (value / 100)), ?_, ?_, by ring⟩
    · simp only [BranchWeightsEditor.updateWeight]
      rw [List.get?_map, List.get?_set_ne _ _ (Ne.symm hi), ha, Option.map_some']
    · simp only [BranchWeightsEditor.updateWeight]
      rw [List.get?_map, List.get?_set_ne _ _ (Ne.symm hj), hb, Option.map_some']
  · intro hlen hS
    simp only [BranchWeightsEditor.removePath, if_neg (by omega : ¬ weights.length ≤ 2)]
    rw [jsSum_map_div, div_self hS]
  · intro hlen i j a b ha hb
    refine ⟨a / jsSum (weights.eraseIdx index),
      b / jsSum (weights.eraseIdx index), ?_, ?_, by ring⟩
    · simp only [BranchWeightsEditor.removePath, if_neg (by omega : ¬ weights.length ≤ 2)]
      rw [List.get?_map, ha, Option.map_some']
    · simp only [BranchWeightsEditor.removePath, if_neg (by omega : ¬ weights.length ≤ 2)]
      rw [List.get?_map, hb, Option.map_some']
  · intro h1
    simp only [BranchWeightsEditor.addPath]
    rw [jsSum_append, jsSum_map_mul, h1]
    have : jsSum [1 / ((weights.length : ℚ) + 1)] = 1 / ((weights.length : ℚ) + 1) := by
      simp [jsSum_eq_sum]
    rw [this]
    ring
  · intro i j a b ha hb
    obtain ⟨hia, -⟩ := List.get?_eq_some.mp ha
    obtain ⟨hja, -⟩ := List.get?_eq_some.mp hb
    refine ⟨a * (1 - 1 / ((weights.length : ℚ) + 1)),
      b * (1 - 1 / ((weights.length : ℚ) + 1)), ?_, ?_, by ring⟩
    · simp only [BranchWeightsEditor.addPath]
      rw [List.get?_append (by rw [List.length_map]; exact hia), List.get?_map, ha,
        Option.map_some']
    · simp only [BranchWeightsEditor.addPath]
      rw [List.get?_append (by rw [List.length_map]; exact hja), List.get?_map, hb,
        Option.map_some']

/-- C8, witness: the amended normalization facts at concrete inputs —
    `updateWeight([1/2, 1/2], 0, 30)`, `removePath([1/4, 1/4, 1/2], 0)`, and
    `addPath([1/2, 1/2])`. -/
theorem c8_weight_normalization_amended_witness :
    (jsSum ([(1 : ℚ) / 2, 1 / 2].set 0 (30 / 100)) ≠ 0 ∧
      jsSum (BranchWeightsEditor.updateWeight [1 / 2, 1 / 2] 0 30) = 1) ∧
    (2 < ([(1 : ℚ) / 4, 1 / 4, 1 / 2]).length ∧
      jsSum ([(1 : ℚ) / 4, 1 / 4, 1 / 2].eraseIdx 0) ≠ 0 ∧
      jsSum (BranchWeightsEditor.removePath [1 / 4, 1 / 4, 1 / 2] 0) = 1) ∧
    (jsSum [(1 : ℚ) / 2, 1 / 2] = 1 ∧
      jsSum (BranchWeightsEditor.addPath [1 / 2, 1 / 2]) = 1) := by
  have h1 : jsSum ([(1 : ℚ) / 2, 1 / 2].set 0 (30 / 100)) ≠ 0 := by
    with_unfolding_all decide
  have h2 : jsSum ([(1 : ℚ) / 4, 1 / 4, 1 / 2].eraseIdx 0) ≠ 0 := by
    with_unfolding_all decide
  have h3 : jsSum [(1 : ℚ) / 2, 1 / 2] = 1 := by with_unfolding_all decide
  refine ⟨⟨h1, (c8_weight_normalization_amended [1 / 2, 1 / 2] 0 30).1 h1⟩,
    ⟨by decide, h2,
      ((c8_weight_normalization_amended [1 / 4, 1 / 4, 1 / 2] 0 0).2.2.1) (by decide) h2⟩,
    ⟨h3, ((c8_weight_normalization_amended [1 / 2, 1 / 2] 0 0).2.2.2.2.1) h3⟩⟩

/-! ## C6: simulation run count, seed schedule and success rate -/

theorem generate_once_seed (request : GenerationRequest) (now dur : ℤ)
    (res : GenerationResult) (h : generate_once request now dur = some res) :
    res.seed = request.seed := by
  unfold generate_once at h
  cases hg : generateDungeon request.seed with
  | none => rw [hg] at h; cases h
  | some d => rw [hg] at h; cases h; rfl

theorem runResultsAux_spec (config : SimulationConfig) (ts : ℕ → ℤ × ℤ) :
    ∀ n i results, runResultsAux config ts n i = some results →
      results.length = n ∧
      ∀ k (hk : k < results.length),
        (results.get ⟨k, hk⟩).seed = config.seedStart.getD 0 + ((i + k : ℕ) : ℤ) := by
  intro n
  induction n with
  | zero =>
      intro i results h
      cases h
      exact ⟨rfl, fun k hk => absurd hk (by simp)⟩
  | succ n ih =>
      intro i results h
      simp only [runResultsAux] at h
      split at h
      · cases h
      · rename_i res hres
        split at h
        · cases h
        · rename_i rest hrest
          cases h
          obtain ⟨hlen, hseeds⟩ := ih (i + 1) rest hrest
          refine ⟨by simp [hlen], ?_⟩
          intro k hk
          cases k with
          | zero =>
              show res.seed = _
              rw [generate_once_seed _ _ _ _ hres]
              simp
          | succ k =>
              show (rest.get ⟨k, _⟩).seed = _
              have hk2 : k < rest.length := by
                simp only [List.length_cons] at hk
                omega
              have := hseeds k hk2
              rw [this]
              have harith : i + 1 + k = i + (k + 1) := by omega
              rw [harith]

/-- C6: whenever `run_simulation` returns a `SimulationResults`, it has
    performed exactly `runCount` single-run generations with exactly the
    seeds `seedStart, seedStart + 1, …` (`seedStart` defaulting to `0` when
    absent), and the reported `successRate` is the number of successful runs
    divided by `runCount`. -/
theorem c6_run_simulation_seeds_and_success_rate (config : SimulationConfig)
    (ts : ℕ → ℤ × ℤ) (dur : ℤ) (out : SimulationResults)
    (h : run_simulation config ts dur = some out) :
    out.runs = config.runCount ∧
    ∃ results : List GenerationResult,
      runResultsAux config ts config.runCount 0 = some results ∧
      results.length = config.runCount ∧
      (∀ k (hk : k < results.length),
        (results.get ⟨k, hk⟩).seed = config.seedStart.getD 0 + (k : ℤ)) ∧
      out.successRate =
        ((results.filter (fun r => r.success)).length : ℚ) / (config.runCount : ℚ) := by
  unfold run_simulation at h
  split at h
  · cases h
  · rename_i results hres
    cases h
    obtain ⟨hlen, hseeds⟩ := runResultsAux_spec config ts config.runCount 0 results hres
    refine ⟨rfl, results, hres, hlen, ?_, ?_⟩
    · intro k hk
      have := hseeds k hk
      rwa [Nat.zero_add] at this
    · show ((results.filter (fun r => r.success)).length : ℚ) / (results.length : ℚ) = _
      rw [hlen]

/-- C6, witness: a simulation of two runs starting at seed `7`. -/
theorem c6_run_simulation_seeds_and_success_rate_witness :
    ∃ out, run_simulation ⟨"dungeon", 2, some 7⟩ (fun _ => (0, 0)) 0 = some out ∧
      out.runs = 2 := by
  obtain ⟨out, hout⟩ := Option.isSome_iff_exists.mp
    (show (run_simulation ⟨"dungeon", 2, some 7⟩ (fun _ => (0, 0)) 0).isSome by
      with_unfolding_all decide)
  exact ⟨out, hout,
    (c6_run_simulation_seeds_and_success_rate _ _ _ out hout).1⟩

/-! ## C7: cancellation -/

theorem simulateAux_cancelled (config : SimulationConfig) (ts : ℕ → ℤ × ℤ)
    (dur : ℤ) (k : ℕ) :
    ∀ n i acc out, k < i + n → i ≤ k →
      simulateAux config ts dur (some k) n i acc = some out →
      out = SimulationOutcome.cancelled := by
  intro n
  induction n with
  | zero => intro i acc out h1 h2 h3; omega
  | succ n ih =>
      intro i acc out h1 h2 h3
      by_cases hk : k ≤ i
      · have hco : cancelObserved (some k) i = true := by
          simp [cancelObserved, hk]
        simp only [simulateAux, hco, if_true] at h3
        cases h3
        rfl
      · have hco : cancelObserved (some k) i = false := by
          simp [cancelObserved]
          omega
        simp only [simulateAux, hco, Bool.false_eq_true, if_false] at h3
        split at h3
        · cases h3
        · exact ih (i + 1) _ out (by omega) (by omega) h3

/-- C7: when the cancellation flag is raised before all scheduled runs have
    been dispatched (`k < runCount`), the cancellable simulation runner
    returns the cancelled-state outcome — never a `completed` outcome built
    from the partial results. -/
theorem c7_cancellation_returns_cancelled (config : SimulationConfig)
    (ts : ℕ → ℤ × ℤ) (dur : ℤ) (k : ℕ) (out : SimulationOutcome)
    (hk : k < config.runCount)
    (h : runSimulationCancellable config ts dur (some k) = some out) :
    out = SimulationOutcome.cancelled ∧
    ∀ res : SimulationResults, out ≠ SimulationOutcome.completed res := by
  have hc := simulateAux_cancelled config ts dur k config.runCount 0 [] out
    (by omega) (Nat.zero_le k) h
  exact ⟨hc, fun res hcon => by rw [hc] at hcon; cases hcon⟩

/-- C7, witness: cancelling after 10 of 100 scheduled runs yields the
    cancelled outcome. -/
theorem c7_cancellation_returns_cancelled_witness :
    10 < (100 : ℕ) ∧
    ∃ out, runSimulationCancellable ⟨"dungeon", 100, some 0⟩ (fun _ => (0, 0)) 0
        (some 10) = some out ∧
      out = SimulationOutcome.cancelled := by
  refine ⟨by decide, ?_⟩
  obtain ⟨out, hout⟩ := Option.isSome_iff_exists.mp
    (show (runSimulationCancellable ⟨"dungeon", 100, some 0⟩ (fun _ => (0, 0)) 0
        (some 10)).isSome by
      with_unfolding_all decide)
  exact ⟨out, hout,
    (c7_cancellation_returns_cancelled _ _ _ 10 out (by decide) hout).1⟩

/-! ## C10: structural invariants of generated layouts -/

theorem genRoomsAux_length (rc : ℕ) :
    ∀ (n i : ℕ) (lx ly : ℤ) (r : SeededRandom),
      ((genRoomsAux rc n i lx ly r).2).length = n := by
  intro n
  induction n with
  | zero => intro i lx ly r; rfl
  | succ n ih => intro i lx ly r; simp only [genRoomsAux, List.length_cons, ih]

theorem genRoomsAux_head (rc n i : ℕ) (lx ly : ℤ) (r : SeededRandom)
    (hn : n ≠ 0) :
    ∃ rest, (genRoomsAux rc n i lx ly r).2 = (genRoom rc i lx ly r).2.1 :: rest := by
  cases n with
  | zero => exact absurd rfl hn
  | succ n => exact ⟨_, rfl⟩

theorem genRoom_width (rc i : ℕ) (lx ly : ℤ) (r : SeededRandom) :
    ((genRoom rc i lx ly r).2.1).bounds.width = (r.nextInt 6 14).2 := rfl

theorem genRoom_height (rc i : ℕ) (lx ly : ℤ) (r : SeededRandom) :
    ((genRoom rc i lx ly r).2.1).bounds.height = ((r.nextInt 6 14).1.nextInt 6 12).2 := rfl

theorem genRoom_size_bounds (rc i : ℕ) (lx ly : ℤ) (r : SeededRandom) :
    6 ≤ ((genRoom rc i lx ly r).2.1).bounds.width ∧
    ((genRoom rc i lx ly r).2.1).bounds.width ≤ 15 ∧
    6 ≤ ((genRoom rc i lx ly r).2.1).bounds.height ∧
    ((genRoom rc i lx ly r).2.1).bounds.height ≤ 13 := by
  rw [genRoom_width, genRoom_height]
  have h1 := nextInt_bounds r 6 14 (by norm_num)
  have h2 := nextInt_bounds (r.nextInt 6 14).1 6 12 (by norm_num)
  omega

theorem seqConnections_mem :
    ∀ (rooms : List GeneratedRoom) (i : ℕ) (hi : i + 1 < rooms.length),
      seqConnection (rooms.get ⟨i, Nat.lt_of_succ_lt hi⟩) (rooms.get ⟨i + 1, hi⟩) ∈
        seqConnections rooms := by
  intro rooms
  induction rooms with
  | nil => intro i hi; simp at hi
  | cons a rest ih =>
      intro i hi
      cases rest with
      | nil => simp only [List.length_cons, List.length_nil] at hi; omega
      | cons b rest2 =>
          cases i with
          | zero => exact List.mem_cons_self _ _
          | succ j =>
              have hj : j + 1 < (b :: rest2).length := by
                simp only [List.length_cons] at hi ⊢
                omega
              exact List.mem_cons_of_mem _ (ih j hj)

theorem reach_chain (conns : List RoomConnection) (rooms : List GeneratedRoom)
    (hsub : ∀ i (hi : i + 1 < rooms.length),
      ∃ c ∈ conns, c.fromRoomId = (rooms.get ⟨i, Nat.lt_of_succ_lt hi⟩).id ∧
        c.toRoomId = (rooms.get ⟨i + 1, hi⟩).id) :
    ∀ k (hk : k < rooms.length) (h0 : 0 < rooms.length),
      DirectedReach conns ((rooms.get ⟨0, h0⟩).id) ((rooms.get ⟨k, hk⟩).id) := by
  intro k
  induction k with
  | zero => intro hk h0; exact Relation.ReflTransGen.refl
  | succ k ih =>
      intro hk h0
      exact Relation.ReflTransGen.tail (ih (Nat.lt_of_succ_lt hk) h0) (hsub k hk)

theorem generateDungeon_shape (seed : ℤ) (L : DungeonLayout)
    (h : generateDungeon seed = some L) :
    ∃ (branch : List RoomConnection) (startRoom : GeneratedRoom)
      (rest : List GeneratedRoom),
      L.rooms = (genRoomsAux (((SeededRandom.nextInt ⟨seed⟩ 5 12).2).toNat)
          (((SeededRandom.nextInt ⟨seed⟩ 5 12).2).toNat) 0 0 0
          ((SeededRandom.nextInt ⟨seed⟩ 5 12).1)).2 ∧
      L.rooms = startRoom :: rest ∧
      L.connections = seqConnections L.rooms ++ branch ∧
      L.playerStart = roomCenter startRoom := by
  unfold generateDungeon at h
  conv at h => lhs; zeta
  split at h
  · cases h
  · rename_i qb hqb
    split at h
    · cases h
    · rename_i qs hqs
      split at h
      · cases h
      · rename_i startRoom rest hrooms
        cases h
        exact ⟨qb.2, startRoom, rest, rfl, hrooms, rfl, rfl⟩

/-- C10: every layout returned by `generateDungeon` has between `5` and `12`
    rooms inclusive (the count draw `nextInt(5, 12)` stays in range because
    `next()` is strictly below `1`); its connection list links every pair of
    consecutive rooms, so every room is reachable from the first room along
    directed `RoomConnection`s; and the first room spatially contains
    `playerStart`. -/
theorem c10_layout_invariants (seed : ℤ) (L : DungeonLayout)
    (h : generateDungeon seed = some L) :
    (5 ≤ L.rooms.length ∧ L.rooms.length ≤ 12) ∧
    (∀ i (hi : i + 1 < L.rooms.length),
      ∃ c ∈ L.connections,
        c.fromRoomId = (L.rooms.get ⟨i, Nat.lt_of_succ_lt hi⟩).id ∧
        c.toRoomId = (L.rooms.get ⟨i + 1, hi⟩).id) ∧
    (∀ h0 : 0 < L.rooms.length, ∀ room ∈ L.rooms,
      DirectedReach L.connections ((L.rooms.get ⟨0, h0⟩).id) room.id) ∧
    (∀ h0 : 0 < L.rooms.length,
      rectContains ((L.rooms.get ⟨0, h0⟩).bounds) L.playerStart = true) := by
  obtain ⟨branch, startRoom, rest, hR, hcons, hconn, hps⟩ :=
    generateDungeon_shape seed L h
  have hcount := nextInt_bounds ⟨seed⟩ 5 12 (by norm_num)
  have hcount12 := nextInt_le_of_lt_one ⟨seed⟩ 5 12 (by norm_num) (next_lt_one ⟨seed⟩)
  have hlen : L.rooms.length = ((SeededRandom.nextInt ⟨seed⟩ 5 12).2).toNat := by
    rw [hR, genRoomsAux_length]
  have hseq : ∀ i (hi : i + 1 < L.rooms.length),
      ∃ c ∈ L.connections,
        c.fromRoomId = (L.rooms.get ⟨i, Nat.lt_of_succ_lt hi⟩).id ∧
        c.toRoomId = (L.rooms.get ⟨i + 1, hi⟩).id := by
    intro i hi
    rw [hconn]
    exact ⟨_, List.mem_append_left _ (seqConnections_mem L.rooms i hi), rfl, rfl⟩
  have hget0 : ∀ h0 : 0 < L.rooms.length, L.rooms.get ⟨0, h0⟩ = startRoom := by
    intro h0
    rw [List.get_of_eq hcons]
    rfl
  refine ⟨⟨by omega, by omega⟩, hseq, ?_, ?_⟩
  · intro h0 room hroom
    obtain ⟨⟨k, hk⟩, hget⟩ := List.mem_iff_get.mp hroom
    rw [← hget]
    exact reach_chain L.connections L.rooms hseq k hk h0
  · intro h0
    rw [hget0 h0, hps]
    have hrc : ((SeededRandom.nextInt ⟨seed⟩ 5 12).2).toNat ≠ 0 := by omega
    obtain ⟨rest2, hhead⟩ := genRoomsAux_head _ _ 0 0 0 _ hrc
    have hstart : startRoom =
        (genRoom (((SeededRandom.nextInt ⟨seed⟩ 5 12).2).toNat) 0 0 0
          ((SeededRandom.nextInt ⟨seed⟩ 5 12).1)).2.1 := by
      have h2 := hhead.symm.trans (hR.symm.trans hcons)
      exact (List.cons.inj h2).1.symm
    obtain ⟨hw1, hw2, hh1, hh2⟩ :=
      genRoom_size_bounds (((SeededRandom.nextInt ⟨seed⟩ 5 12).2).toNat) 0 0 0
        ((SeededRandom.nextInt ⟨seed⟩ 5 12).1)
    rw [← hstart] at hw1 hw2 hh1 hh2
    simp only [rectContains, roomCenter, jsHalf, Bool.and_eq_true, decide_eq_true_eq]
    omega

/-- C10, witness: the invariants at seed `0` (a five-room layout). -/
theorem c10_layout_invariants_witness :
    ∃ L, generateDungeon 0 = some L ∧
      (5 ≤ L.rooms.length ∧ L.rooms.length ≤ 12) := by
  obtain ⟨L, hL⟩ := Option.isSome_iff_exists.mp
    (show (generateDungeon 0).isSome by with_unfolding_all decide)
  exact ⟨L, hL, (c10_layout_invariants 0 L hL).1⟩

/-! ## C3: the `connected` constraint on layouts with an isolated room -/

theorem expandReach_sound (conns : List RoomConnection) (allIds seen : List String)
    (start : String) (hseen : ∀ x ∈ seen, ReachableIn conns start x) :
    ∀ x ∈ expandReach conns allIds seen, ReachableIn conns start x := by
  intro x hx
  rcases List.mem_append.mp hx with hmem | hmem
  · exact hseen x hmem
  · obtain ⟨hxall, hcond⟩ := List.mem_filter.mp hmem
    rw [Bool.and_eq_true] at hcond
    obtain ⟨s, hs, hadj⟩ := List.any_eq_true.mp hcond.2
    exact Relation.ReflTransGen.tail (hseen s hs) hadj

theorem reachIter_sound (conns : List RoomConnection) (allIds : List String)
    (start : String) :
    ∀ n (seen : List String), (∀ x ∈ seen, ReachableIn conns start x) →
      ∀ x ∈ (expandReach conns allIds)^[n] seen, ReachableIn conns start x := by
  intro n
  induction n with
  | zero => intro seen hseen x hx; exact hseen x hx
  | succ n ih =>
      intro seen hseen x hx
      rw [Function.iterate_succ_apply] at hx
      exact ih _ (expandReach_sound conns allIds seen start hseen) x hx

theorem reachSet_sound (L : DungeonLayout) (start : String) :
    ∀ x ∈ reachSet L start, ReachableIn L.connections start x := by
  intro x hx
  refine reachIter_sound L.connections _ start L.rooms.length [start] ?_ x hx
  intro y hy
  rw [List.mem_singleton] at hy
  rw [hy]
  exact Relation.ReflTransGen.refl

/-- C3: on any layout that contains an isolated room — a room with no
    path of `RoomConnection`s from the room holding `playerStart` — the
    spec-modelled `connected` constraint check fails. -/
theorem c3_connected_constraint_fails_isolated (L : DungeonLayout)
    (s room : GeneratedRoom) (hs : startRoom? L = some s) (hmem : room ∈ L.rooms)
    (hiso : ¬ ReachableIn L.connections s.id room.id) :
    connectedCheck L = false := by
  cases hc : connectedCheck L with
  | false => rfl
  | true =>
      exfalso
      unfold connectedCheck at hc
      rw [hs, List.all_eq_true] at hc
      have hcont := hc room hmem
      exact hiso (reachSet_sound L s.id room.id (List.mem_of_elem_eq_true hcont))

/-- C3, witness: a concrete two-room layout with no connections —
    `room-b` is unreachable from `room-a`, the room containing
    `playerStart`, and the check reports failure. -/
theorem c3_connected_constraint_fails_isolated_witness :
    startRoom? isolatedLayout =
      some ⟨"room-a", some ("chamber"), ⟨0, 0, 4, 4⟩, [], ⟨0, none⟩⟩ ∧
    (⟨"room-b", some ("chamber"), ⟨10, 0, 4, 4⟩, [], ⟨0, none⟩⟩ : GeneratedRoom) ∈
      isolatedLayout.rooms ∧
    connectedCheck isolatedLayout = false := by
  have hs : startRoom? isolatedLayout =
      some ⟨"room-a", some ("chamber"), ⟨0, 0, 4, 4⟩, [], ⟨0, none⟩⟩ := by
    with_unfolding_all decide
  have hmem : (⟨"room-b", some ("chamber"), ⟨10, 0, 4, 4⟩, [], ⟨0, none⟩⟩ :
      GeneratedRoom) ∈ isolatedLayout.rooms := by
    with_unfolding_all decide
  have hiso : ¬ ReachableIn isolatedLayout.connections ("room-a") ("room-b") := by
    intro hreach
    rcases Relation.ReflTransGen.cases_head hreach with heq | ⟨c, hstep, -⟩
    · exact absurd heq (by decide)
    · simp [adjacentRooms, isolatedLayout] at hstep
  exact ⟨hs, hmem,
    c3_connected_constraint_fails_isolated isolatedLayout _ _ hs hmem hiso⟩

end DungeonForge
